import Mathlib

/-!
# Verification of the sermon metadata generator

A shallow embedding of the two core JavaScript files of the repository
(`llm-metadata-generator.js` and `yaml-generator.js`) together with proofs
about the behaviour their specification describes.

Conventions of the embedding:
* JavaScript values appearing in the relevant code paths are modelled by
  `JVal`; JavaScript objects by ordered association lists (`JObj`), whose
  operations mirror object spread, member access and member assignment.
* JavaScript numbers are modelled as exact rationals; every number handled
  by the code under study is produced by `parseFloat` on a decimal literal,
  so no floating-point rounding is observable in the properties proved here.
* File system and network calls are passed in explicitly (a function
  argument or an environment record); the current timestamp (`new Date()`)
  is an explicit argument.
* Regular-expression searches are translated, regex by regex, into
  executable scanning functions that follow the JavaScript backtracking
  semantics of the concrete pattern being modelled.
-/

set_option maxRecDepth 8000

/-- A JavaScript value, as needed by the metadata pipeline.  `undefined`
models the result of reading an absent property. -/
inductive JVal where
  | undefined : JVal
  | null : JVal
  | bool (b : Bool) : JVal
  | num (q : ℚ) : JVal
  | str (s : String) : JVal
  | arr (elems : List JVal) : JVal
  | obj (fields : List (String × JVal)) : JVal

/-- A JavaScript object: ordered fields, later assignments override. -/
abbrev JObj := List (String × JVal)

/-- Property lookup in an association list (JS objects never hold duplicate
keys, so the first occurrence is the only one). -/
def alookup {α : Type} : List (String × α) → String → Option α
  | [], _ => none
  | p :: t, k => if p.1 = k then some p.2 else alookup t k

/-- JS member assignment `o[k] = v`: overwrite the existing key in place,
otherwise append the new key at the end (JS insertion order). -/
def aset {α : Type} : List (String × α) → String → α → List (String × α)
  | [], k, v => [(k, v)]
  | p :: t, k, v => if p.1 = k then (k, v) :: t else p :: aset t k v

/-- Object spread `{...a, ...b}`: fields of `b` assigned over `a`. -/
def jmerge (a b : JObj) : JObj :=
  b.foldl (fun acc p => aset acc p.1 p.2) a

/-- JS member access on an object value; reading any property of a
non-object primitive used by this code yields `undefined`. -/
def jgetV (v : JVal) (k : String) : JVal :=
  match v with
  | .obj fields => (alookup fields k).getD .undefined
  | _ => .undefined

/-- Member access `o.k` on an object given as a field list. -/
def jgetO (o : JObj) (k : String) : JVal :=
  (alookup o k).getD .undefined

/-- JS truthiness of the modelled values (`NaN` does not occur here;
objects and arrays, even empty ones, are truthy). -/
def JVal.truthy : JVal → Bool
  | .undefined => false
  | .null => false
  | .bool b => b
  | .num q => q ≠ 0
  | .str s => s ≠ ""
  | .arr _ => true
  | .obj _ => true

/-- JS `a || b`. -/
def jor (a b : JVal) : JVal := if a.truthy then a else b

/-- The own enumerable fields contributed by `{...v}`: objects spread their
fields, the primitives occurring in this pipeline spread to nothing. -/
def spreadFields : JVal → JObj
  | .obj fields => fields
  | _ => []

/-- `Object.keys(v).length` for the values this code applies it to. -/
def objKeysLength : JVal → Nat
  | .obj fields => fields.length
  | _ => 0

theorem alookup_aset_self {α : Type} (l : List (String × α)) (k : String) (v : α) :
    alookup (aset l k v) k = some v := by
  induction l with
  | nil => simp [aset, alookup]
  | cons p t ih =>
    by_cases h : p.1 = k
    · simp [aset, alookup, h]
    · simp [aset, alookup, h, ih]

theorem alookup_aset_ne {α : Type} (l : List (String × α)) (k k' : String) (v : α)
    (h : k' ≠ k) : alookup (aset l k v) k' = alookup l k' := by
  have hkk : ¬ (k = k') := fun hc => h hc.symm
  induction l with
  | nil => simp [aset, alookup, hkk]
  | cons p t ih =>
    by_cases hp : p.1 = k
    · subst hp
      simp [aset, alookup, hkk]
    · by_cases hp' : p.1 = k'
      · simp [aset, alookup, hp, hp', h]
      · simp [aset, alookup, hp, hp', ih]

/-- `oelse a b` is `a` unless `a` is `none`, in which case it is `b`. -/
def oelse {α : Type} : Option α → Option α → Option α
  | some v, _ => some v
  | none, b => b

theorem alookup_append {α : Type} (l₁ l₂ : List (String × α)) (k : String) :
    alookup (l₁ ++ l₂) k = oelse (alookup l₁ k) (alookup l₂ k) := by
  induction l₁ with
  | nil => simp [alookup, oelse]
  | cons p t ih =>
    by_cases hp : p.1 = k
    · simp [alookup, oelse, hp]
    · simp [alookup, hp, ih]

/-- Lookup of the last binding of `k` (the binding JS spread keeps). -/
def alookupLast {α : Type} (l : List (String × α)) (k : String) : Option α :=
  alookup l.reverse k

theorem alookup_jmerge (a b : JObj) (k : String) :
    alookup (jmerge a b) k = oelse (alookupLast b k) (alookup a k) := by
  induction b generalizing a with
  | nil => simp [jmerge, alookupLast, alookup, oelse]
  | cons p t ih =>
    have step : jmerge a (p :: t) = jmerge (aset a p.1 p.2) t := rfl
    rw [step, ih]
    unfold alookupLast
    simp only [List.reverse_cons, alookup_append]
    cases hl : alookup t.reverse k with
    | some v => simp [hl, oelse]
    | none =>
      simp only [hl, oelse]
      by_cases hp : p.1 = k
      · subst hp
        simp [alookup, oelse, alookup_aset_self]
      · simp [alookup, oelse, hp, alookup_aset_ne _ _ _ _ (fun hc => hp hc.symm)]

/-! ## Labeled-score extraction (`generateRadarScores`, lines 649-679)

The nine extraction categories, the per-category regular expressions
`SCORE <cat>:\s*(\d+(?:\.\d+)?)` (flag `i`) and
`JUSTIFICATION <cat>:\s*(.+?)(?=\n\s*SCORE|\n\s*JUSTIFICATION|$)` (flags `is`),
the extraction loop, and the default-fill loop. -/

/-- `RADAR_CATEGORIES` (lines 193-203): the list driving score extraction. -/
def RADAR_CATEGORIES : List String :=
  ["theological_cohesion", "scriptural_integration", "structural_clarity",
   "liturgical_harmony", "voice_fidelity", "emotional_presence",
   "metaphorical_resonance", "closing_force", "embodied_authority"]

/-- The JS regex `\s` class (ASCII part, which is all the inputs use). -/
def jsWhitespace (c : Char) : Bool :=
  c.toNat = 32 || c.toNat = 9 || c.toNat = 10 || c.toNat = 13 || c.toNat = 11 || c.toNat = 12

/-- Does `pat` occur anywhere in `l`? -/
def containsSub (pat : List Char) : List Char → Bool
  | [] => pat.isEmpty
  | l@(_ :: t) => pat.isPrefixOf l || containsSub pat t

/-- JS `String.prototype.trim`: strip whitespace from both ends. -/
def jsTrim (s : String) : String :=
  String.mk (((s.data.dropWhile jsWhitespace).reverse.dropWhile jsWhitespace).reverse)

/-- Base-10 value of a digit run. -/
def digitsVal (l : List Char) : ℕ :=
  l.foldl (fun a c => 10 * a + (c.toNat - 48)) 0

/-- Match `\d+(?:\.\d+)?` at the head of `l` and give the exact value
`parseFloat` computes for the capture. -/
def matchNumber (l : List Char) : Option ℚ :=
  let ds := l.takeWhile Char.isDigit
  if ds.isEmpty then none
  else
    match l.drop ds.length with
    | '.' :: r2 =>
      let fs := r2.takeWhile Char.isDigit
      if fs.isEmpty then some (digitsVal ds : ℚ)
      else some ((digitsVal ds : ℚ) + (digitsVal fs : ℚ) / ((10 : ℚ) ^ fs.length))
    | _ => some (digitsVal ds : ℚ)

/-- Strip `pat` from the head of `l`, comparing case-insensitively
(the regexes carry the `i` flag). -/
def ciStrip : List Char → List Char → Option (List Char)
  | [], l => some l
  | _, [] => none
  | p :: ps, c :: cs => if p.toLower = c.toLower then ciStrip ps cs else none

/-- The literal part of the score regex. -/
def scoreLabel (category : String) : List Char :=
  ("SCORE " ++ category ++ ":").data

/-- Attempt the score regex at this position: literal label, `\s*`, number. -/
def matchScoreAt (category : String) (l : List Char) : Option ℚ :=
  match ciStrip (scoreLabel category) l with
  | some rest => matchNumber (rest.dropWhile jsWhitespace)
  | none => none

/-- Leftmost match of the score regex (`String.prototype.match`). -/
def findScore (category : String) : List Char → Option ℚ
  | [] => none
  | c :: cs =>
    match matchScoreAt category (c :: cs) with
    | some q => some q
    | none => findScore category cs

/-- The literal part of the justification regex. -/
def justLabel (category : String) : List Char :=
  ("JUSTIFICATION " ++ category ++ ":").data

/-- The lookahead `(?=\n\s*SCORE|\n\s*JUSTIFICATION|$)`: end of input, or a
newline followed by optional whitespace and one of the two labels (the
letters of a label are not `\s`, so the backtracking search through `\s*`
is equivalent to skipping the whole whitespace run). -/
def justBoundary : List Char → Bool
  | [] => true
  | '\n' :: rest =>
      let r := rest.dropWhile jsWhitespace
      (ciStrip "SCORE".data r).isSome || (ciStrip "JUSTIFICATION".data r).isSome
  | _ => false

/-- The lazy `(.+?)` (dotall): at least one character, extended until the
first position where the lookahead holds (it always holds at end of
input, where `$` matches). -/
def lazyCapture : List Char → List Char
  | [] => []
  | c :: cs => if justBoundary cs then [c] else c :: lazyCapture cs

/-- Attempt the justification regex at this position.  The greedy `\s*`
consumes the whole whitespace run first; if nothing remains for `.+?` it
gives back one whitespace character, which then forms the capture. -/
def matchJustAt (category : String) (l : List Char) : Option (List Char) :=
  match ciStrip (justLabel category) l with
  | none => none
  | some rest =>
    match rest.dropWhile jsWhitespace with
    | [] =>
      match (rest.takeWhile jsWhitespace).reverse with
      | [] => none
      | c :: _ => some [c]
    | b :: bs => some (lazyCapture (b :: bs))

/-- Leftmost match of the justification regex. -/
def findJustList (category : String) : List Char → Option (List Char)
  | [] => none
  | c :: cs =>
    match matchJustAt category (c :: cs) with
    | some cap => some cap
    | none => findJustList category cs

/-- Captured justification, after the code's `.trim()`. -/
def findJust (category : String) (l : List Char) : Option String :=
  (findJustList category l).map (fun cap => jsTrim (String.mk cap))

/-- One iteration of the extraction `forEach` (lines 652-669): record the
parsed score (the regex only matches a decimal literal, so `parseFloat`
never yields `NaN` and the `isNaN` guard is inert) and the captured
justification. -/
def extractStep (reply : List Char)
    (acc : List (String × ℚ) × List (String × String)) (category : String) :
    List (String × ℚ) × List (String × String) :=
  let acc1 := match findScore category reply with
    | some q => (aset acc.1 category q, acc.2)
    | none => acc
  match findJust category reply with
  | some j => (acc1.1, aset acc1.2 category j)
  | none => acc1

/-- The extraction loop over the nine categories, starting from the empty
`radar_score` and `justifications` objects. -/
def extractLoop (reply : List Char) : List (String × ℚ) × List (String × String) :=
  RADAR_CATEGORIES.foldl (extractStep reply) ([], [])

/-- One iteration of the fallback `forEach` (lines 671-677): a category with
no score gets score 0 and the sentinel justification. -/
def fillStep (acc : List (String × ℚ) × List (String × String)) (category : String) :
    List (String × ℚ) × List (String × String) :=
  if alookup acc.1 category = none then
    (aset acc.1 category 0, aset acc.2 category "No evaluation provided.")
  else acc

/-- The fallback loop over the nine categories. -/
def fillDefaults (acc : List (String × ℚ) × List (String × String)) :
    List (String × ℚ) × List (String × String) :=
  RADAR_CATEGORIES.foldl fillStep acc

/-- The extraction part of `generateRadarScores`: extraction loop followed
by default fill, producing `radar_score` and `justifications`. -/
def extractRadar (llmResponse : String) : List (String × ℚ) × List (String × String) :=
  fillDefaults (extractLoop llmResponse.data)

@[simp] theorem oelse_none {α : Type} (a : Option α) : oelse a none = a := by
  cases a <;> rfl

@[simp] theorem oelse_none_left {α : Type} (b : Option α) : oelse none b = b := rfl

theorem matchNumber_nonneg (l : List Char) (q : ℚ) (h : matchNumber l = some q) :
    0 ≤ q := by
  unfold matchNumber at h
  dsimp only at h
  split at h
  · exact absurd h (by simp)
  · split at h
    · split at h
      · simp only [Option.some.injEq] at h
        subst h
        positivity
      · simp only [Option.some.injEq] at h
        subst h
        positivity
    · simp only [Option.some.injEq] at h
      subst h
      positivity

theorem findScore_nonneg (category : String) (l : List Char) (q : ℚ)
    (h : findScore category l = some q) : 0 ≤ q := by
  induction l with
  | nil => simp [findScore] at h
  | cons c cs ih =>
    rw [findScore] at h
    split at h
    · next q' hq =>
      simp only [Option.some.injEq] at h
      subst h
      unfold matchScoreAt at hq
      split at hq
      · exact matchNumber_nonneg _ _ hq
      · cases hq
    · exact ih h

theorem extractStep_fst_lookup (reply : List Char)
    (acc : List (String × ℚ) × List (String × String)) (c k : String) :
    alookup (extractStep reply acc c).1 k =
      if k = c then oelse (findScore c reply) (alookup acc.1 k)
      else alookup acc.1 k := by
  unfold extractStep
  cases hs : findScore c reply with
  | some q =>
    cases hj : findJust c reply with
    | some j =>
      by_cases hk : k = c
      · subst hk
        simp [oelse, alookup_aset_self]
      · simp [hk, alookup_aset_ne _ _ _ _ hk]
    | none =>
      by_cases hk : k = c
      · subst hk
        simp [oelse, alookup_aset_self]
      · simp [hk, alookup_aset_ne _ _ _ _ hk]
  | none =>
    cases hj : findJust c reply with
    | some j =>
      by_cases hk : k = c
      · subst hk
        simp [oelse]
      · simp [hk]
    | none =>
      by_cases hk : k = c
      · subst hk
        simp [oelse]
      · simp [hk]

theorem extractStep_snd_lookup (reply : List Char)
    (acc : List (String × ℚ) × List (String × String)) (c k : String) :
    alookup (extractStep reply acc c).2 k =
      if k = c then oelse (findJust c reply) (alookup acc.2 k)
      else alookup acc.2 k := by
  unfold extractStep
  cases hs : findScore c reply with
  | some q =>
    cases hj : findJust c reply with
    | some j =>
      by_cases hk : k = c
      · subst hk
        simp [oelse, alookup_aset_self]
      · simp [hk, alookup_aset_ne _ _ _ _ hk]
    | none =>
      by_cases hk : k = c
      · subst hk
        simp [oelse]
      · simp [hk]
  | none =>
    cases hj : findJust c reply with
    | some j =>
      by_cases hk : k = c
      · subst hk
        simp [oelse, alookup_aset_self]
      · simp [hk, alookup_aset_ne _ _ _ _ hk]
    | none =>
      by_cases hk : k = c
      · subst hk
        simp [oelse]
      · simp [hk]

theorem foldl_extractStep_not_mem (reply : List Char) (cats : List String)
    (acc : List (String × ℚ) × List (String × String)) (k : String)
    (hk : k ∉ cats) :
    alookup (cats.foldl (extractStep reply) acc).1 k = alookup acc.1 k ∧
    alookup (cats.foldl (extractStep reply) acc).2 k = alookup acc.2 k := by
  induction cats generalizing acc with
  | nil => exact ⟨rfl, rfl⟩
  | cons c t ih =>
    have hkc : k ≠ c := fun hc => hk (by simp [hc])
    have hkt : k ∉ t := fun hc => hk (by simp [hc])
    have h1 := extractStep_fst_lookup reply acc c k
    have h2 := extractStep_snd_lookup reply acc c k
    rw [if_neg hkc] at h1 h2
    have := ih (extractStep reply acc c) hkt
    exact ⟨by rw [List.foldl_cons, this.1, h1], by rw [List.foldl_cons, this.2, h2]⟩

theorem foldl_extractStep_mem (reply : List Char) (cats : List String)
    (acc : List (String × ℚ) × List (String × String)) (k : String)
    (hnd : cats.Nodup) (hk : k ∈ cats) :
    alookup (cats.foldl (extractStep reply) acc).1 k =
      oelse (findScore k reply) (alookup acc.1 k) ∧
    alookup (cats.foldl (extractStep reply) acc).2 k =
      oelse (findJust k reply) (alookup acc.2 k) := by
  induction cats generalizing acc with
  | nil => cases hk
  | cons c t ih =>
    rcases List.mem_cons.mp hk with hkc | hkt
    · subst hkc
      have hknott : k ∉ t := (List.nodup_cons.mp hnd).1
      have h1 := extractStep_fst_lookup reply acc k k
      have h2 := extractStep_snd_lookup reply acc k k
      rw [if_pos rfl] at h1 h2
      have hrest := foldl_extractStep_not_mem reply t (extractStep reply acc k) k hknott
      exact ⟨by rw [List.foldl_cons, hrest.1, h1], by rw [List.foldl_cons, hrest.2, h2]⟩
    · have hkc : k ≠ c := by
        intro hc
        subst hc
        exact (List.nodup_cons.mp hnd).1 hkt
      have h1 := extractStep_fst_lookup reply acc c k
      have h2 := extractStep_snd_lookup reply acc c k
      rw [if_neg hkc] at h1 h2
      have := ih (extractStep reply acc c) (List.nodup_cons.mp hnd).2 hkt
      exact ⟨by rw [List.foldl_cons, this.1, h1], by rw [List.foldl_cons, this.2, h2]⟩

theorem fillStep_fst_lookup (acc : List (String × ℚ) × List (String × String))
    (c k : String) :
    alookup (fillStep acc c).1 k =
      if k = c then oelse (alookup acc.1 k) (some 0)
      else alookup acc.1 k := by
  unfold fillStep
  split
  · next h =>
    by_cases hk : k = c
    · subst hk
      simp [h, oelse, alookup_aset_self]
    · simp [hk, alookup_aset_ne _ _ _ _ hk]
  · next h =>
    by_cases hk : k = c
    · subst hk
      cases hv : alookup acc.1 k with
      | some v => simp [oelse, hv]
      | none => exact absurd hv h
    · simp [hk]

theorem fillStep_snd_lookup (acc : List (String × ℚ) × List (String × String))
    (c k : String) :
    alookup (fillStep acc c).2 k =
      if k = c then
        (if alookup acc.1 c = none then some "No evaluation provided."
         else alookup acc.2 k)
      else alookup acc.2 k := by
  unfold fillStep
  split
  · next h =>
    by_cases hk : k = c
    · subst hk
      simp [h, alookup_aset_self]
    · simp [hk, alookup_aset_ne _ _ _ _ hk]
  · next h =>
    by_cases hk : k = c
    · subst hk
      simp [h]
    · simp [hk]

theorem foldl_fillStep_not_mem (cats : List String)
    (acc : List (String × ℚ) × List (String × String)) (k : String)
    (hk : k ∉ cats) :
    alookup (cats.foldl fillStep acc).1 k = alookup acc.1 k ∧
    alookup (cats.foldl fillStep acc).2 k = alookup acc.2 k := by
  induction cats generalizing acc with
  | nil => exact ⟨rfl, rfl⟩
  | cons c t ih =>
    have hkc : k ≠ c := fun hc => hk (by simp [hc])
    have hkt : k ∉ t := fun hc => hk (by simp [hc])
    have h1 := fillStep_fst_lookup acc c k
    have h2 := fillStep_snd_lookup acc c k
    rw [if_neg hkc] at h1 h2
    have := ih (fillStep acc c) hkt
    exact ⟨by rw [List.foldl_cons, this.1, h1], by rw [List.foldl_cons, this.2, h2]⟩

theorem foldl_fillStep_mem (cats : List String)
    (acc : List (String × ℚ) × List (String × String)) (k : String)
    (hnd : cats.Nodup) (hk : k ∈ cats) :
    alookup (cats.foldl fillStep acc).1 k = oelse (alookup acc.1 k) (some 0) ∧
    alookup (cats.foldl fillStep acc).2 k =
      (if alookup acc.1 k = none then some "No evaluation provided."
       else alookup acc.2 k) := by
  induction cats generalizing acc with
  | nil => cases hk
  | cons c t ih =>
    rcases List.mem_cons.mp hk with hkc | hkt
    · subst hkc
      have hknott : k ∉ t := (List.nodup_cons.mp hnd).1
      have h1 := fillStep_fst_lookup acc k k
      have h2 := fillStep_snd_lookup acc k k
      rw [if_pos rfl] at h1 h2
      have hrest := foldl_fillStep_not_mem t (fillStep acc k) k hknott
      exact ⟨by rw [List.foldl_cons, hrest.1, h1], by rw [List.foldl_cons, hrest.2, h2]⟩
    · have hkc : k ≠ c := by
        intro hc
        subst hc
        exact (List.nodup_cons.mp hnd).1 hkt
      have h1 := fillStep_fst_lookup acc c k
      have h2 := fillStep_snd_lookup acc c k
      rw [if_neg hkc] at h1 h2
      have := ih (fillStep acc c) (List.nodup_cons.mp hnd).2 hkt
      refine ⟨by rw [List.foldl_cons, this.1, h1], ?_⟩
      rw [List.foldl_cons, this.2, h1, h2]

theorem radar_categories_nodup : RADAR_CATEGORIES.Nodup := by decide

/-- Closed form for the score map produced by extraction plus default fill:
every listed category is present, holding the parsed score, defaulted to 0. -/
theorem extractRadar_score_lookup (llmResponse : String) (k : String)
    (hk : k ∈ RADAR_CATEGORIES) :
    alookup (extractRadar llmResponse).1 k =
      some ((findScore k llmResponse.data).getD 0) := by
  unfold extractRadar fillDefaults extractLoop
  have hloop := foldl_extractStep_mem llmResponse.data RADAR_CATEGORIES ([], [])
    k radar_categories_nodup hk
  have hfill := foldl_fillStep_mem RADAR_CATEGORIES
    (RADAR_CATEGORIES.foldl (extractStep llmResponse.data) ([], []))
    k radar_categories_nodup hk
  rw [hfill.1, hloop.1]
  cases h : findScore k llmResponse.data with
  | some q => simp [oelse, alookup]
  | none => simp [oelse, alookup]

/-- Closed form for the justification map: a category with no parsed score
carries the sentinel; a category with a parsed score carries whatever the
justification regex captured (possibly nothing). -/
theorem extractRadar_just_lookup (llmResponse : String) (k : String)
    (hk : k ∈ RADAR_CATEGORIES) :
    alookup (extractRadar llmResponse).2 k =
      (match findScore k llmResponse.data with
       | none => some "No evaluation provided."
       | some _ => findJust k llmResponse.data) := by
  unfold extractRadar fillDefaults extractLoop
  have hloop := foldl_extractStep_mem llmResponse.data RADAR_CATEGORIES ([], [])
    k radar_categories_nodup hk
  have hfill := foldl_fillStep_mem RADAR_CATEGORIES
    (RADAR_CATEGORIES.foldl (extractStep llmResponse.data) ([], []))
    k radar_categories_nodup hk
  rw [hfill.2, hloop.1, hloop.2]
  simp only [alookup, oelse_none]
  cases h : findScore k llmResponse.data with
  | some q => simp
  | none => simp

/-- Extraction only ever writes the nine listed categories. -/
theorem extractRadar_score_lookup_not_mem (llmResponse : String) (k : String)
    (hk : k ∉ RADAR_CATEGORIES) :
    alookup (extractRadar llmResponse).1 k = none := by
  unfold extractRadar fillDefaults extractLoop
  have hloop := foldl_extractStep_not_mem llmResponse.data RADAR_CATEGORIES ([], []) k hk
  have hfill := foldl_fillStep_not_mem RADAR_CATEGORIES
    (RADAR_CATEGORIES.foldl (extractStep llmResponse.data) ([], [])) k hk
  rw [hfill.1, hloop.1]
  rfl

/-! ## Structured-object extraction and merge (`generateSermonMetadata`, lines 453-491)

The reply is searched for a fenced code block
(`/```(?:json)?\s*([\s\S]*?)```/`) and, failing a truthy capture, for the
lazy brace match `/{[\s\S]*?}/`; the text found is given to `JSON.parse`;
on failure the existing metadata is returned. -/

/-- Strip `pat` (case-sensitively) from the head of `l`. -/
def csStrip : List Char → List Char → Option (List Char)
  | [], l => some l
  | _, [] => none
  | p :: ps, c :: cs => if p = c then csStrip ps cs else none

/-- Whitespace accepted between JSON tokens. -/
def jsonWs (c : Char) : Bool :=
  c.toNat = 32 || c.toNat = 9 || c.toNat = 10 || c.toNat = 13

/-- Hex digit value. -/
def hexVal (c : Char) : Option ℕ :=
  let n := c.toNat
  if 48 ≤ n ∧ n ≤ 57 then some (n - 48)
  else if 97 ≤ n ∧ n ≤ 102 then some (n - 87)
  else if 65 ≤ n ∧ n ≤ 70 then some (n - 55)
  else none

/-- Single-character JSON string escapes (quote, backslash and slash map
to themselves; the letters to their control characters). -/
def escChar (c : Char) : Option Char :=
  if c.toNat = 110 then some (Char.ofNat 10)
  else if c.toNat = 116 then some (Char.ofNat 9)
  else if c.toNat = 114 then some (Char.ofNat 13)
  else if c.toNat = 98 then some (Char.ofNat 8)
  else if c.toNat = 102 then some (Char.ofNat 12)
  else if c.toNat = 34 || c.toNat = 92 || c.toNat = 47 then some c
  else none

/-- JSON string body parser (after the opening quote). -/
def jsonStringLoop : List Char → List Char → Option (String × List Char)
  | acc, '"' :: r => some (String.mk acc.reverse, r)
  | acc, '\\' :: 'u' :: h1 :: h2 :: h3 :: h4 :: r =>
    match hexVal h1, hexVal h2, hexVal h3, hexVal h4 with
    | some a, some b, some c, some d =>
      jsonStringLoop (Char.ofNat (((a * 16 + b) * 16 + c) * 16 + d) :: acc) r
    | _, _, _, _ => none
  | acc, '\\' :: e :: r =>
    match escChar e with
    | some c => jsonStringLoop (c :: acc) r
    | none => none
  | _, '\\' :: [] => none
  | acc, c :: r => jsonStringLoop (c :: acc) r
  | _, [] => none

/-- JSON exponent part. -/
def jsonExpTail (q : ℚ) (neg : Bool) (l : List Char) : Option (ℚ × List Char) :=
  let ds := l.takeWhile Char.isDigit
  if ds.isEmpty then none
  else
    let e : ℤ := if neg then -(digitsVal ds : ℤ) else (digitsVal ds : ℤ)
    some (q * (10 : ℚ) ^ e, l.drop ds.length)

/-- Optional JSON exponent. -/
def jsonExp (q : ℚ) (l : List Char) : Option (ℚ × List Char) :=
  match l with
  | 'e' :: '+' :: r => jsonExpTail q false r
  | 'e' :: '-' :: r => jsonExpTail q true r
  | 'e' :: r => jsonExpTail q false r
  | 'E' :: '+' :: r => jsonExpTail q false r
  | 'E' :: '-' :: r => jsonExpTail q true r
  | 'E' :: r => jsonExpTail q false r
  | _ => some (q, l)

/-- Unsigned JSON number (leading-zero strictness is not modelled; no input
here exercises it). -/
def jsonNumberCore (l : List Char) : Option (ℚ × List Char) :=
  let ds := l.takeWhile Char.isDigit
  if ds.isEmpty then none
  else
    match l.drop ds.length with
    | '.' :: r =>
      let fs := r.takeWhile Char.isDigit
      if fs.isEmpty then none
      else jsonExp ((digitsVal ds : ℚ) + (digitsVal fs : ℚ) / (10 : ℚ) ^ fs.length)
        (r.drop fs.length)
    | l2 => jsonExp (digitsVal ds : ℚ) l2

/-- JSON number. -/
def jsonNumber (l : List Char) : Option (ℚ × List Char) :=
  match l with
  | '-' :: r => (jsonNumberCore r).map (fun p => (-p.1, p.2))
  | _ => jsonNumberCore l

mutual

/-- JSON value parser, modelling `JSON.parse`.  Fuel decreases at every
nested parse and nesting is bounded by the input length. -/
def jsonValue : ℕ → List Char → Option (JVal × List Char)
  | 0, _ => none
  | fuel + 1, l =>
    let l2 := l.dropWhile jsonWs
    match csStrip "null".data l2 with
    | some r => some (.null, r)
    | none =>
    match csStrip "true".data l2 with
    | some r => some (.bool true, r)
    | none =>
    match csStrip "false".data l2 with
    | some r => some (.bool false, r)
    | none =>
    match l2 with
    | '"' :: r => (jsonStringLoop [] r).map (fun p => (.str p.1, p.2))
    | '{' :: r =>
      (match r.dropWhile jsonWs with
       | '}' :: r2 => some (.obj [], r2)
       | r2 => (jsonMembers fuel [] r2).map (fun p => (.obj p.1, p.2)))
    | '[' :: r =>
      (match r.dropWhile jsonWs with
       | ']' :: r2 => some (.arr [], r2)
       | _ => (jsonElems fuel [] r).map (fun p => (.arr p.1, p.2)))
    | r => (jsonNumber r).map (fun p => (.num p.1, p.2))

/-- Object members after `{` (duplicate keys keep the last binding, as
`JSON.parse` does). -/
def jsonMembers : ℕ → JObj → List Char → Option (JObj × List Char)
  | 0, _, _ => none
  | fuel + 1, acc, l =>
    match l with
    | '"' :: r =>
      (match jsonStringLoop [] r with
       | none => none
       | some (key, r2) =>
         match r2.dropWhile jsonWs with
         | ':' :: r3 =>
           (match jsonValue fuel r3 with
            | none => none
            | some (v, r4) =>
              match r4.dropWhile jsonWs with
              | ',' :: r5 => jsonMembers fuel (aset acc key v) (r5.dropWhile jsonWs)
              | '}' :: r5 => some (aset acc key v, r5)
              | _ => none)
         | _ => none)
    | _ => none

/-- Array elements after `[`. -/
def jsonElems : ℕ → List JVal → List Char → Option (List JVal × List Char)
  | 0, _, _ => none
  | fuel + 1, acc, l =>
    match jsonValue fuel l with
    | none => none
    | some (v, r) =>
      match r.dropWhile jsonWs with
      | ',' :: r2 => jsonElems fuel (acc ++ [v]) r2
      | ']' :: r2 => some (acc ++ [v], r2)
      | _ => none

end

/-- `JSON.parse`: one value, nothing but whitespace after it. -/
def jsonParse (s : String) : Option JVal :=
  match jsonValue (s.data.length + 1) s.data with
  | some (v, rest) => if rest.dropWhile jsonWs = [] then some v else none
  | none => none

/-- Lazy capture of `([\s\S]*?)` up to the closing triple backtick. -/
def fenceCapture : List Char → Option (List Char)
  | [] => none
  | c :: cs =>
    if (csStrip "```".data (c :: cs)).isSome then some []
    else (fenceCapture cs).map (fun t => c :: t)

/-- Attempt `/```(?:json)?\s*([\s\S]*?)```/` at this position: marker,
optional `json` tag (greedily; no backtracking is ever needed because the
closing marker can occur neither inside `json` nor inside whitespace),
greedy whitespace, then the lazy capture. -/
def fenceAt (l : List Char) : Option (List Char) :=
  match csStrip "```".data l with
  | none => none
  | some r1 =>
    let r2 := match csStrip "json".data r1 with
      | some r => r
      | none => r1
    fenceCapture (r2.dropWhile jsWhitespace)

/-- Leftmost match of the fenced-block regex. -/
def extractFencedBlock : List Char → Option (List Char)
  | [] => none
  | c :: cs =>
    match fenceAt (c :: cs) with
    | some cap => some cap
    | none => extractFencedBlock cs

/-- `/{[\s\S]*?}/`: from the first opening brace, lazily to the nearest
closing brace — not to the matching one. -/
def braceMatch (l : List Char) : Option (List Char) :=
  match l.dropWhile (fun c => ¬ c = '{') with
  | [] => none
  | c :: rest =>
    let inner := rest.takeWhile (fun c => ¬ c = '}')
    match rest.drop inner.length with
    | [] => none
    | _ :: _ => some (c :: (inner ++ ['}']))

/-- Depth-counting scan used by the spec-described balanced extraction. -/
def balancedCapture : ℕ → List Char → Option (List Char)
  | depth, c :: cs =>
    if c = '}' then
      if depth = 0 then some ['}']
      else (balancedCapture (depth - 1) cs).map (fun t => c :: t)
    else if c = '{' then (balancedCapture (depth + 1) cs).map (fun t => c :: t)
    else (balancedCapture depth cs).map (fun t => c :: t)
  | _, [] => none

/-- Modelled from the spec: "the first balanced brace-delimited substring"
— from the first opening brace to the brace that closes it. -/
def braceBalancedSpec (l : List Char) : Option (List Char) :=
  match l.dropWhile (fun c => ¬ c = '{') with
  | [] => none
  | c :: rest => (balancedCapture 0 rest).map (fun t => c :: t)

/-- The merged-metadata object literal (lines 472-484):
`{...metadata, ...existingMetadata, bolt: metadata.bolt || existing.bolt,
themes: ..., metaphors: ..., radar_score: {...(existing.radar_score || {}),
...(metadata.radar_score || {})}, radar_justifications:
existing.radar_justifications || {}}`. -/
def mergeMetadata (metadata : JVal) (existingMetadata : JObj) : JObj :=
  let base := jmerge (spreadFields metadata) existingMetadata
  let b1 := aset base "bolt" (jor (jgetV metadata "bolt") (jgetO existingMetadata "bolt"))
  let b2 := aset b1 "themes" (jor (jgetV metadata "themes") (jgetO existingMetadata "themes"))
  let b3 := aset b2 "metaphors"
    (jor (jgetV metadata "metaphors") (jgetO existingMetadata "metaphors"))
  let rs := jmerge
    (spreadFields (jor (jgetO existingMetadata "radar_score") (.obj [])))
    (spreadFields (jor (jgetV metadata "radar_score") (.obj [])))
  let b4 := aset b3 "radar_score" (.obj rs)
  aset b4 "radar_justifications" (jor (jgetO existingMetadata "radar_justifications") (.obj []))

/-- The brace-fallback branch (lines 459-465): parse the lazy brace match;
"No JSON found" and parse failures both land in the `catch` that returns
the existing metadata. -/
def braceFallback (llmResponse : String) (existingMetadata : JObj) : JObj :=
  match braceMatch llmResponse.data with
  | some m =>
    match jsonParse (String.mk m) with
    | some v => mergeMetadata v existingMetadata
    | none => existingMetadata
  | none => existingMetadata

/-- The response-parsing and merging tail of `generateSermonMetadata`
(lines 453-491): fenced block first (a falsy — empty — capture falls
through to the brace match), `JSON.parse` on what was found, merge on
success, existing metadata unchanged on any failure. -/
def generateSermonMetadataFromReply (llmResponse : String) (existingMetadata : JObj) : JObj :=
  match extractFencedBlock llmResponse.data with
  | some cap =>
    if cap ≠ [] then
      match jsonParse (jsTrim (String.mk cap)) with
      | some v => mergeMetadata v existingMetadata
      | none => existingMetadata
    else braceFallback llmResponse existingMetadata
  | none => braceFallback llmResponse existingMetadata

/-! ## Document rewrite (`updateFileWithRadarSection`, lines 1898-1952)

The function is embedded as a pure text transformation: the file read and
write are lifted out (old file content in, new file content out) and the
`new Date().toISOString()` timestamp is an explicit argument.  The
frontmatter split performed by gray-matter and the header serialisation
performed by js-yaml are modelled for the value shapes these headers
carry. -/

/-- gray-matter content extraction: for `---\n<yaml>\n---<rest>` the
content is `<rest>` (the newline after the closing delimiter is kept, as
the gray-matter README example shows); without a frontmatter block the
whole text is the content. -/
def dropThroughClose : List Char → Option (List Char)
  | [] => none
  | l@(_ :: t) =>
    match csStrip "\n---".data l with
    | some r => some r
    | none => dropThroughClose t

/-- The `content` field of `matter(fileContent)`. -/
def matterContent (s : String) : String :=
  match csStrip "---\n".data s.data with
  | some afterOpen =>
    match dropThroughClose afterOpen with
    | some r => String.mk r
    | none => s
  | none => s

/-- The marker recognised by the removal regex. -/
def radarMarker : List Char := "## Radar Analysis".data

/-- End of the lazy `[\s\S]*?` scan: the first position at or after the
marker where the lookahead `(?=^# |\n*$)` holds.  With the `m` flag, `$`
matches before any newline, so `\n*$` holds (taking zero newlines) at the
first newline — or at end of input.  A `^# ` position is always preceded
by a newline and can never be reached first; the alternative is kept for
faithfulness. -/
def radarLazyEnd (atLineStart : Bool) : List Char → List Char
  | [] => []
  | c :: cs =>
    if c = '\n' then c :: cs
    else if atLineStart ∧ c = '#' ∧ cs.head? = some ' ' then c :: cs
    else radarLazyEnd false cs

/-- `content.replace(/(^## Radar Analysis[\s\S]*?)(?=^# |\n*$)/m, '')`
(line 1907): replace the first (leftmost) match.  The match starts at a
line start carrying the marker and — because of the multiline `$` — ends
at the end of that same line, so only the marker line's text is removed
and the rest of the section stays. -/
def removeRadarScan (atLineStart : Bool) : List Char → List Char
  | [] => []
  | c :: cs =>
    if atLineStart ∧ radarMarker.isPrefixOf (c :: cs) then
      radarLazyEnd false ((c :: cs).drop radarMarker.length)
    else c :: removeRadarScan (c = '\n') cs

/-- The section-removal step applied to the document body. -/
def removeRadarSection (s : String) : String :=
  String.mk (removeRadarScan true s.data)

/-- Fractional digits of `n / d` (with `n < d`), fuel-bounded; exact for
the terminating decimals `parseFloat` produces here. -/
def fracDigits : ℕ → ℕ → ℕ → String
  | 0, _, _ => ""
  | _, 0, _ => ""
  | fuel + 1, n, d => toString (n * 10 / d) ++ fracDigits fuel (n * 10 % d) d

/-- JS number-to-string coercion for the rationals occurring here (exact
for integers and terminating decimals, which is all that `parseFloat` on
`\d+(\.\d+)?` can produce). -/
def jsNumToString (q : ℚ) : String :=
  let sign := if q < 0 then "-" else ""
  let n := q.num.natAbs
  let d := q.den
  if n % d = 0 then sign ++ toString (n / d)
  else sign ++ toString (n / d) ++ "." ++ fracDigits 30 (n % d) d

mutual

/-- JS template-literal coercion `${v}` for the modelled values. -/
def displayString : JVal → String
  | .undefined => "undefined"
  | .null => "null"
  | .bool b => if b then "true" else "false"
  | .num q => jsNumToString q
  | .str s => s
  | .arr l => displayStrings l
  | .obj _ => "[object Object]"

/-- Array coercion: elements joined with commas. -/
def displayStrings : List JVal → String
  | [] => ""
  | [v] => displayString v
  | v :: rest => displayString v ++ "," ++ displayStrings rest

end

/-- `true` exactly on `undefined`. -/
def JVal.isUndefined : JVal → Bool
  | .undefined => true
  | _ => false

/-- `word.charAt(0).toUpperCase() + word.slice(1)`. -/
def capitalizeWord (w : String) : String :=
  match w.data with
  | [] => ""
  | c :: cs => String.mk (c.toUpper :: cs)

/-- `str.split('_')` on the character list. -/
def splitOnChar (sep : Char) : List Char → List (List Char)
  | [] => [[]]
  | c :: cs =>
    let r := splitOnChar sep cs
    if c = sep then [] :: r
    else
      match r with
      | h :: t => (c :: h) :: t
      | [] => [[c]]

/-- `words.join(' ')`. -/
def joinSpace : List String → String
  | [] => ""
  | [w] => w
  | w :: rest => w ++ " " ++ joinSpace rest

/-- `category.split('_').map(capitalize).join(' ')` (line 1931). -/
def formatCategoryName (category : String) : String :=
  joinSpace ((splitOnChar '_' category.data).map (fun w => capitalizeWord (String.mk w)))

/-- The category list of `updateFileWithRadarSection` (lines 1916-1926);
its last entry is `improvisational_trust`, not `embodied_authority`. -/
def sectionCategories : List String :=
  ["theological_cohesion", "scriptural_integration", "structural_clarity",
   "liturgical_harmony", "voice_fidelity", "emotional_presence",
   "metaphorical_resonance", "closing_force", "improvisational_trust"]

/-- The categories whose bullet the `forEach` at lines 1927-1934 emits:
those with `yamlData.radar_score` truthy and a defined entry. -/
def renderedCategories (yamlData : JObj) : List String :=
  sectionCategories.filter (fun category =>
    (jgetO yamlData "radar_score").truthy
      && !(jgetV (jgetO yamlData "radar_score") category).isUndefined)

/-- One bullet line of the radar section (line 1932). -/
def bulletLine (yamlData : JObj) (justifications : List (String × String))
    (category : String) : String :=
  let score := jgetV (jgetO yamlData "radar_score") category
  let justification := (alookup justifications category).getD ""
  "- **" ++ formatCategoryName category ++ " (" ++ displayString score
    ++ "/10)**: " ++ justification ++ "\n"

/-- The `## Radar Analysis` section text assembled at lines 1913-1935. -/
def radarSectionText (yamlData : JObj) (justifications : List (String × String))
    (modelName timestamp : String) : String :=
  "## Radar Analysis\n_Generated by model: " ++ modelName ++ " | " ++ timestamp ++ "_\n\n"
    ++ ((renderedCategories yamlData).map (bulletLine yamlData justifications)).foldl (· ++ ·) ""
    ++ "\n"

/-- Does js-yaml single-quote this scalar? (the subset of its rules these
headers exercise: empty strings and strings containing `": "`). -/
def yamlNeedsQuote (s : String) : Bool :=
  s = "" || containsSub ": ".data s.data

/-- js-yaml scalar rendering for the values in these headers (`undefined`
never occurs in a dumped header). -/
def yamlScalar : JVal → String
  | .str s => if yamlNeedsQuote s then "\x27" ++ s ++ "\x27" else s
  | .num q => jsNumToString q
  | .bool b => if b then "true" else "false"
  | .null => "null"
  | .undefined => "undefined"
  | .arr _ => ""
  | .obj _ => ""

mutual

/-- js-yaml `dump` entries at a given indentation (maps of scalars,
nested maps, and lists of scalars — the shapes these headers carry). -/
def yamlEntries (indent : String) : JObj → String
  | [] => ""
  | (k, v) :: rest => yamlEntry indent k v ++ yamlEntries indent rest

/-- One `key: value` line (or block, for nested maps and lists). -/
def yamlEntry (indent k : String) : JVal → String
  | .obj [] => indent ++ k ++ ": \x7b\x7d\n"
  | .obj fields => indent ++ k ++ ":\n" ++ yamlEntries (indent ++ "  ") fields
  | .arr [] => indent ++ k ++ ": []\n"
  | .arr elems => indent ++ k ++ ":\n" ++ yamlItems indent elems
  | v => indent ++ k ++ ": " ++ yamlScalar v ++ "\n"

/-- List items (`- item` lines). -/
def yamlItems (indent : String) : List JVal → String
  | [] => ""
  | v :: rest => indent ++ "- " ++ yamlScalar v ++ "\n" ++ yamlItems indent rest

end

/-- js-yaml `dump` of a header object. -/
def yamlDump (o : JObj) : String := yamlEntries "" o

/-- `updateFileWithRadarSection` (lines 1898-1952) as a pure text
transformation: read the body through gray-matter, delete the first
radar-marker match, render the fresh section, add `radar_info`, drop
`radar_justifications` (rest-destructuring), dump the header and
reassemble `---\nyaml---\n\nsection + trimmed body`. -/
def updateFileWithRadarSection (fileContent : String) (yamlData : JObj)
    (justifications : List (String × String)) (modelName timestamp : String) : String :=
  let contentWithoutRadar := removeRadarSection (matterContent fileContent)
  let radarSection := radarSectionText yamlData justifications modelName timestamp
  let yamlData2 := aset yamlData "radar_info"
    (.str ("Model: " ++ modelName ++ " | Generated: " ++ timestamp))
  let yamlWithoutJustifications := yamlData2.filter (fun p => ¬ p.1 = "radar_justifications")
  "---\n" ++ yamlDump yamlWithoutJustifications ++ "---\n\n" ++ radarSection
    ++ jsTrim contentWithoutRadar

/-! ## Header validation (`validateSermonYAML`, lines 1758-1790) -/

/-- The validation score-field list (lines 1771-1775); its last entry is
`improvisational_trust`, not `embodied_authority`. -/
def validationScoreFields : List String :=
  ["theological_cohesion", "scriptural_integration", "structural_clarity",
   "liturgical_harmony", "voice_fidelity", "emotional_presence",
   "metaphorical_resonance", "closing_force", "improvisational_trust"]

/-- Error text for an out-of-range score. -/
def invalidScoreMsg (field : String) : String :=
  "Invalid radar score for " ++ field ++ ". Must be a number between 0 and 10."

/-- `typeof score === 'number' && 0 <= score && score <= 10`. -/
def validScoreVal : JVal → Bool
  | .num q => 0 ≤ q && q ≤ 10
  | _ => false

/-- `validateSermonYAML`: the required-field check (only `sermon_title`)
and, when `radar_score` is truthy, a range check of each *defined* field
of the validation list. -/
def validateSermonYAML (sermonYAML : JObj) : Bool × List String :=
  let errors1 := if (jgetO sermonYAML "sermon_title").truthy then ([] : List String)
    else ["Missing required field: sermon_title"]
  let errors2 :=
    if (jgetO sermonYAML "radar_score").truthy then
      errors1 ++ validationScoreFields.filterMap (fun field =>
        let score := jgetV (jgetO sermonYAML "radar_score") field
        if score.isUndefined then none
        else if validScoreVal score then none
        else some (invalidScoreMsg field))
    else errors1
  (errors2.isEmpty, errors2)

/-! ## Resilient Claude call (`callClaudeWithRetry`, lines 323-365)

The direct-Anthropic branch: a `while (true)` loop that classifies the
thrown error by `status` 429 / 529 / the `x-should-retry` header, sleeps
an exponentially growing wait, and rethrows the raw error once `retries`
reaches `maxRetries`.  (The OpenRouter branch at lines 294-316 performs a
single call with no retry and is not involved in the retry claims.) -/

/-- The provider-error fields the retry loop inspects, plus the message
the `catch` handlers read. -/
structure ClaudeError where
  status : Option ℕ := none
  xShouldRetry : Option String := none
  message : String := ""
deriving DecidableEq

/-- Result of one `anthropic.messages.create` attempt. -/
inductive CallResult (α : Type) where
  | ok (value : α)
  | err (e : ClaudeError)
deriving DecidableEq

/-- Trace of one `callClaudeWithRetry` run: how many attempts were made,
the waits slept between consecutive attempts, and the final outcome. -/
structure RetryOutcome (α : Type) where
  attempts : ℕ
  waits : List ℕ
  result : CallResult α
deriving DecidableEq

/-- The retry loop.  `send n` is the result of the `(n+1)`-st
`anthropic.messages.create` call.  Every retry branch increments
`retries` and is guarded by `retries < maxRetries`, so fuel
`maxRetries + 1` makes the fuel-exhaustion branch unreachable. -/
def callClaudeLoop {α : Type} (send : ℕ → CallResult α) (maxRetries : ℕ) :
    ℕ → ℕ → List ℕ → ℕ → RetryOutcome α
  | _, attempts, waits, 0 => ⟨attempts, waits, .err ⟨none, none, "fuel exhausted"⟩⟩
  | retries, attempts, waits, fuel + 1 =>
    match send attempts with
    | .ok v => ⟨attempts + 1, waits, .ok v⟩
    | .err e =>
      if e.status = some 429 ∧ retries < maxRetries then
        callClaudeLoop send maxRetries (retries + 1) (attempts + 1)
          (waits ++ [2000 * 2 ^ retries]) fuel
      else if e.status = some 529 ∧ retries < maxRetries then
        callClaudeLoop send maxRetries (retries + 1) (attempts + 1)
          (waits ++ [5000 * 2 ^ retries]) fuel
      else if e.xShouldRetry = some "true" ∧ retries < maxRetries then
        callClaudeLoop send maxRetries (retries + 1) (attempts + 1)
          (waits ++ [3000 * 2 ^ retries]) fuel
      else ⟨attempts + 1, waits, .err e⟩

/-- `callClaudeWithRetry` (direct-Anthropic branch): run the loop from
zero retries.  The source default for `maxRetries` is 5. -/
def callClaudeWithRetry {α : Type} (send : ℕ → CallResult α) (maxRetries : ℕ) :
    RetryOutcome α :=
  callClaudeLoop send maxRetries 0 0 [] (maxRetries + 1)

theorem callClaudeLoop_always529 {α : Type} (e : ClaudeError)
    (hs : e.status = some 529) (maxRetries : ℕ) :
    ∀ fuel retries attempts waits, retries ≤ maxRetries →
      fuel = maxRetries + 1 - retries →
      callClaudeLoop (fun _ => CallResult.err (α := α) e) maxRetries retries attempts waits fuel =
        ⟨attempts + (maxRetries - retries) + 1,
         waits ++ (List.range (maxRetries - retries)).map (fun k => 5000 * 2 ^ (retries + k)),
         .err e⟩ := by
  intro fuel
  induction fuel generalizing maxRetries with
  | zero =>
    intro retries attempts waits hle hfuel
    omega
  | succ fuel ih =>
    intro retries attempts waits hle hfuel
    rw [callClaudeLoop]
    dsimp only
    have h429 : ¬ (e.status = some 429 ∧ retries < maxRetries) := by
      rw [hs]; rintro ⟨hc, -⟩; cases hc
    by_cases hlt : retries < maxRetries
    · have h529 : e.status = some 529 ∧ retries < maxRetries := ⟨hs, hlt⟩
      rw [if_neg h429, if_pos h529,
        ih maxRetries (retries + 1) (attempts + 1) (waits ++ [5000 * 2 ^ retries])
          (by omega) (by omega)]
      have hd : maxRetries - retries = (maxRetries - (retries + 1)) + 1 := by omega
      simp only [RetryOutcome.mk.injEq]
      refine ⟨by omega, ?_, trivial⟩
      rw [List.append_assoc, hd, List.range_succ_eq_map]
      simp only [List.map_cons, List.map_map, pow_zero, Nat.add_zero, List.singleton_append]
      congr 1
      congr 1
      apply List.map_congr_left
      intro k hk
      simp only [Function.comp_apply, Nat.succ_eq_add_one]
      congr 2
      omega
    · have heq : maxRetries = retries := by omega
      subst heq
      rw [if_neg (by simp [Nat.lt_irrefl]), if_neg (by simp [Nat.lt_irrefl]),
        if_neg (by simp [Nat.lt_irrefl])]
      simp

/-! ## Per-document processing and the batch loop
(`processSermonFile` lines 695-829, `processSermonDirectory` lines 837-871)

The effectful collaborators (file system, gray-matter parse, the LLM
transports) are an explicit environment; `processSermonFile` is then the
total function the source's outer try/catch makes it: it resolves with a
success record or with the caught per-document error record. -/

/-- An error thrown by a modelled effect (only its message is observed). -/
structure JsErr where
  message : String
deriving DecidableEq

/-- Result of a modelled effectful step. -/
inductive Res (α : Type) where
  | ok (value : α)
  | err (e : JsErr)

/-- Model-selection options passed to the LLM helpers. -/
structure LLMOpts where
  useClaude : Bool
  useOpenRouter : Bool
  model : Option String
deriving DecidableEq

/-- The effectful collaborators of `processSermonFile`: `fs.readFileSync`
(throws on a missing file), `matter` (throws on malformed frontmatter),
the two LLM transports — each resolving to a reply text or a thrown,
classified error — and the file update (total: `updateFileWithRadarSection`
catches internally and returns a success flag). -/
structure Env where
  readFile : String → Res String
  parseMatter : String → Res (JObj × String)
  metadataReply : String → LLMOpts → Res String
  radarReply : String → LLMOpts → Res String
  updateFile : String → JObj → List (String × String) → String → Bool

/-- `generateSermonMetadata` (lines 375-491): obtain a reply, parse and
merge it.  The function's own catch (lines 487-490) turns any transport
failure into the existing metadata, so the function never rejects. -/
def generateSermonMetadataRun (env : Env) (content : String) (existingMetadata : JObj)
    (opts : LLMOpts) : JObj :=
  match env.metadataReply content opts with
  | .ok reply => generateSermonMetadataFromReply reply existingMetadata
  | .err _ => existingMetadata

/-- `generateRadarScores` (lines 500-687): obtain a reply and run the
extraction plus default fill.  The function's own catch (lines 680-686)
turns any transport failure into
`{radar_score: existingMetadata.radar_score || {}, justifications: {}}`,
so the function never rejects. -/
def generateRadarScoresRun (env : Env) (content : String) (existingMetadata : JObj)
    (opts : LLMOpts) : JVal × List (String × String) :=
  match env.radarReply content opts with
  | .ok reply =>
    let r := extractRadar reply
    (.obj (r.1.map (fun p => (p.1, JVal.num p.2))), r.2)
  | .err _ => (jor (jgetO existingMetadata "radar_score") (.obj []), [])

/-- The options record of `processSermonFile` (lines 696-705). -/
structure ProcessOptions where
  generateMissing : Bool := true
  updateExisting : Bool := false
  scoreOnly : Bool := false
  dryRun : Bool := false
  useClaude : Bool := false
  useOpenRouter : Bool := false
  model : Option String := none
  fallbackModel : Bool := false
  modelForMetadata : Option String := none
  modelForRadar : Option String := none

/-- The object `processSermonFile` resolves with: the success record
`{path, metadata, justifications, validation, updated}` (lines 818-824) or
the caught-error record `{path, error, updated: false}` (line 827). -/
inductive FileResult where
  | success (path : String) (metadata : JObj) (justifications : List (String × String))
      (validation : Bool × List String) (updated : Bool)
  | failure (path : String) (error : String)

/-- The `path` field both record shapes carry. -/
def FileResult.path : FileResult → String
  | .success p _ _ _ _ => p
  | .failure p _ => p

/-- `Array.isArray(v) && v.length === 0`. -/
def isEmptyArr : JVal → Bool
  | .arr [] => true
  | _ => false

/-- The try/catch around `generateRadarScores` inside `processSermonFile`
(lines 753-796).  `generateRadarScores` never rejects — its whole body is
inside try/catch — so the attempt below is always `ok` and the catch
branch is unreachable; it is translated for faithfulness: with
`fallbackModel` set and a truthy error message, the re-invocation at line
783 evaluates the identifier `llmOptions`, which is declared only inside
`main` (line 1339) and not in this scope, so a
`ReferenceError: llmOptions is not defined` is thrown and rethrown by the
inner catch (line 791); otherwise the original error is rethrown
(line 794). -/
def radarTry (env : Env) (content : String) (merged : JObj) (radarOptions : LLMOpts)
    (fallbackModel : Bool) : Res (JVal × List (String × String)) :=
  let attempt : Res (JVal × List (String × String)) :=
    .ok (generateRadarScoresRun env content merged radarOptions)
  match attempt with
  | .ok r => .ok r
  | .err e =>
    if fallbackModel && !(e.message = "") then
      .err ⟨"llmOptions is not defined"⟩
    else .err e

/-- `processSermonFile` (lines 695-829): read and split the document,
decide which generation passes are needed, run them, validate, write, and
return the success record — any thrown error is caught and returned as the
per-document failure record. -/
def processSermonFile (env : Env) (filePath : String) (options : ProcessOptions) :
    FileResult :=
  match env.readFile filePath with
  | .err e => .failure filePath e.message
  | .ok fileContent =>
  match env.parseMatter fileContent with
  | .err e => .failure filePath e.message
  | .ok (existingMetadata, content) =>
    let themes := jgetO existingMetadata "themes"
    let metaphors := jgetO existingMetadata "metaphors"
    let needsFullMetadata0 := options.generateMissing &&
      (!(jgetO existingMetadata "sermon_title").truthy
        || !(jgetO existingMetadata "bolt").truthy
        || !themes.truthy || isEmptyArr themes
        || !metaphors.truthy || isEmptyArr metaphors)
    let radarScore := jgetO existingMetadata "radar_score"
    let needsRadarScores0 := (options.generateMissing || options.scoreOnly) &&
      (!radarScore.truthy || objKeysLength (jor radarScore (.obj [])) == 0)
    let needsFullMetadata :=
      if options.updateExisting then !options.scoreOnly else needsFullMetadata0
    let needsRadarScores := if options.updateExisting then true else needsRadarScores0
    let metadataOptions : LLMOpts :=
      ⟨options.useClaude, options.useOpenRouter, options.modelForMetadata⟩
    let radarOptions : LLMOpts :=
      ⟨options.useClaude, options.useOpenRouter, options.modelForRadar⟩
    let newMetadata1 :=
      if needsFullMetadata then
        generateSermonMetadataRun env content existingMetadata metadataOptions
      else existingMetadata
    let afterRadar : Res (JObj × List (String × String)) :=
      if needsRadarScores then
        match radarTry env content (jmerge existingMetadata newMetadata1) radarOptions
            options.fallbackModel with
        | .ok (rs, justs) => .ok (aset newMetadata1 "radar_score" rs, justs)
        | .err e => .err e
      else .ok (newMetadata1, [])
    match afterRadar with
    | .err e => .failure filePath e.message
    | .ok (newMetadata, justifications) =>
      let validation := validateSermonYAML newMetadata
      let updated := !options.dryRun && (needsFullMetadata || needsRadarScores)
      let modelName := match options.modelForRadar with
        | some m => m
        | none => match options.model with
          | some m => m
          | none => "default model"
      let _success :=
        if updated then env.updateFile filePath newMetadata justifications modelName
        else true
      .success filePath newMetadata justifications validation updated

/-- The batch loop of `processSermonDirectory` (lines 858-869): groups of
5 files via `Promise.all` — each file's processing is deterministic and
touches only its own data, so a concurrent group equals a map — with the
10-second pause between groups dropped (it has no observable effect on the
results). -/
def processBatches (env : Env) (options : ProcessOptions) : List String → List FileResult
  | [] => []
  | f :: rest =>
    ((f :: rest).take 5).map (fun file => processSermonFile env file options)
      ++ processBatches env options ((f :: rest).drop 5)
termination_by l => l.length
decreasing_by
  simp only [List.length_drop, List.length_cons]
  omega

/-- `processSermonDirectory` on the markdown files found by traversal
(the directory walk itself is file-system I/O and is given as the list). -/
def processSermonDirectory (env : Env) (options : ProcessOptions)
    (files : List String) : List FileResult :=
  processBatches env options files

theorem processBatches_eq_map (env : Env) (options : ProcessOptions)
    (files : List String) :
    processBatches env options files =
      files.map (fun f => processSermonFile env f options) := by
  have H : ∀ n (l : List String), l.length ≤ n →
      processBatches env options l = l.map (fun f => processSermonFile env f options) := by
    intro n
    induction n with
    | zero =>
      intro l h
      have : l = [] := List.length_eq_zero.mp (Nat.le_zero.mp h)
      subst this
      rw [processBatches]
      rfl
    | succ n ih =>
      intro l h
      match l with
      | [] =>
        rw [processBatches]
        rfl
      | f :: rest =>
        rw [processBatches, ih ((f :: rest).drop 5) (by simp at h ⊢; omega)]
        rw [← List.map_append, List.take_append_drop]
  exact H files.length files le_rfl

theorem processSermonFile_path (env : Env) (filePath : String)
    (options : ProcessOptions) :
    (processSermonFile env filePath options).path = filePath := by
  unfold processSermonFile
  cases env.readFile filePath with
  | err e => rfl
  | ok fileContent =>
    dsimp only
    cases env.parseMatter fileContent with
    | err e => rfl
    | ok p =>
      obtain ⟨em, content⟩ := p
      dsimp only
      split
      · rfl
      · rfl

/-! ## The claims -/

/-- A document whose header and body the rewrite claims exercise. -/
def c1Doc : String := "---\nsermon_title: Test\n---\n\nHello world."

/-- The merged header passed to the rewrite in the rewrite claims. -/
def c1Header : JObj :=
  [("sermon_title", .str "Test"), ("radar_score", .obj [("theological_cohesion", .num 7)])]

/-- The justifications passed to the rewrite in the rewrite claims. -/
def c1Justs : List (String × String) := [("theological_cohesion", "Good.")]

/-- C1 (code_bug): the document rewrite is claimed idempotent — applying it
a second time with identical inputs (same header, section data, model name
and timestamp) should be a byte-for-byte no-op.  It is not: the removal
regex `/(^## Radar Analysis[\s\S]*?)(?=^# |\n*$)/m` deletes only the
marker line's text (multiline `$` ends the lazy match at the first line
end), so the second pass re-inserts a fresh section in front of the stale
remainder of the first one and the outputs differ. -/
theorem c1_rewrite_not_idempotent :
    updateFileWithRadarSection
        (updateFileWithRadarSection c1Doc c1Header c1Justs "m" "T") c1Header c1Justs "m" "T"
      ≠ updateFileWithRadarSection c1Doc c1Header c1Justs "m" "T" := by
  decide

/-- C2 (code_bug): the removal step is claimed to delete an existing
generated section in its entirety, from the marker to the next top-level
heading or end of body.  On a body holding a full section it deletes only
the text `## Radar Analysis` itself: the generated-by line and every
bullet — here everything up to and including the `# Sermon` heading that
should have bounded the removal — survive. -/
theorem c2_removal_leaves_section_body :
    removeRadarSection
        ("## Radar Analysis\n_Generated by model: m | T_\n\n- **Theological Cohesion (7/10)**: Good.\n\n# Sermon\nBody")
      = "\n_Generated by model: m | T_\n\n- **Theological Cohesion (7/10)**: Good.\n\n# Sermon\nBody" := by
  decide

/-- The claim's `existing` metadata object. -/
def c3Existing : JObj := [("sermon_title", .str "A"), ("themes", .arr [.str "x"])]

/-- The claim's `extracted` metadata object. -/
def c3Extracted : JVal :=
  .obj [("sermon_title", .str "B"), ("themes", .arr [.str "y"]),
        ("radar_score", .obj [("cat1", .num 7)])]

/-- C3 (counterexample): at the claim's own example the merge keeps the
extracted themes, not the existing ones: `merged.themes == ["y"]`, while
the claim demands `["x"]` (title and score behave as claimed). -/
theorem c3_counterexample :
    jgetO (mergeMetadata c3Extracted c3Existing) "themes" = .arr [.str "y"] ∧
    JVal.arr [.str "y"] ≠ .arr [.str "x"] ∧
    jgetO (mergeMetadata c3Extracted c3Existing) "sermon_title" = .str "A" ∧
    jgetV (jgetO (mergeMetadata c3Extracted c3Existing) "radar_score") "cat1" = .num 7 := by
  refine ⟨rfl, ?_, rfl, rfl⟩
  intro h
  simp only [JVal.arr.injEq, List.cons.injEq, JVal.str.injEq, and_true] at h
  exact absurd h (by decide)

/-- C3 (amended): the merge gives the *extracted* value precedence for
`bolt`, `themes` and `metaphors` whenever it is truthy (existing fills the
gap otherwise); the object spread gives *existing* precedence for every
other field, the sermon title included; and the score map is shallow-merged
with extracted entries overriding existing ones per category. -/
theorem c3_merge_precedence (metadata : JVal) (existing : JObj) :
    jgetO (mergeMetadata metadata existing) "bolt"
      = jor (jgetV metadata "bolt") (jgetO existing "bolt") ∧
    jgetO (mergeMetadata metadata existing) "themes"
      = jor (jgetV metadata "themes") (jgetO existing "themes") ∧
    jgetO (mergeMetadata metadata existing) "metaphors"
      = jor (jgetV metadata "metaphors") (jgetO existing "metaphors") ∧
    (∀ c : String,
      alookup (spreadFields (jgetO (mergeMetadata metadata existing) "radar_score")) c
        = oelse (alookupLast (spreadFields (jor (jgetV metadata "radar_score") (.obj []))) c)
            (alookup (spreadFields (jor (jgetO existing "radar_score") (.obj []))) c)) ∧
    (∀ k : String,
      k ∉ ["bolt", "themes", "metaphors", "radar_score", "radar_justifications"] →
      alookup (mergeMetadata metadata existing) k
        = oelse (alookupLast existing k) (alookup (spreadFields metadata) k)) := by
  unfold mergeMetadata
  dsimp only
  refine ⟨?_, ?_, ?_, ?_, ?_⟩
  · rw [jgetO, alookup_aset_ne _ _ _ _ (by decide), alookup_aset_ne _ _ _ _ (by decide),
      alookup_aset_ne _ _ _ _ (by decide), alookup_aset_ne _ _ _ _ (by decide),
      alookup_aset_self]
    rfl
  · rw [jgetO, alookup_aset_ne _ _ _ _ (by decide), alookup_aset_ne _ _ _ _ (by decide),
      alookup_aset_ne _ _ _ _ (by decide), alookup_aset_self]
    rfl
  · rw [jgetO, alookup_aset_ne _ _ _ _ (by decide), alookup_aset_ne _ _ _ _ (by decide),
      alookup_aset_self]
    rfl
  · intro c
    rw [jgetO, alookup_aset_ne _ _ _ _ (by decide), alookup_aset_self]
    simp only [Option.getD_some, spreadFields]
    exact alookup_jmerge _ _ c
  · intro k hk
    simp only [List.mem_cons, List.mem_singleton, not_or] at hk
    obtain ⟨h1, h2, h3, h4, h5, -⟩ := hk
    rw [alookup_aset_ne _ _ _ _ h5, alookup_aset_ne _ _ _ _ h4,
      alookup_aset_ne _ _ _ _ h3, alookup_aset_ne _ _ _ _ h2,
      alookup_aset_ne _ _ _ _ h1]
    exact alookup_jmerge _ _ k

/-- C3 (witness for the amended theorem): the amended precedence evaluated
at the claim's example, including a non-overridden key (`sermon_title`)
where the existing value wins through the spread. -/
theorem c3_merge_precedence_witness :
    jgetO (mergeMetadata c3Extracted c3Existing) "themes"
      = jor (jgetV c3Extracted "themes") (jgetO c3Existing "themes") ∧
    alookup (mergeMetadata c3Extracted c3Existing) "sermon_title"
      = oelse (alookupLast c3Existing "sermon_title")
          (alookup (spreadFields c3Extracted) "sermon_title") :=
  ⟨(c3_merge_precedence c3Extracted c3Existing).2.1,
   (c3_merge_precedence c3Extracted c3Existing).2.2.2.2 "sermon_title" (by decide)⟩

/-- C4 (counterexample): on a reply whose only line is
`SCORE theological_cohesion: 15`, extraction plus default-fill keeps the
out-of-range score 15 (nothing coerces it to null/absent) and leaves that
category with no justification at all — the sentinel is applied only to
categories whose *score* is missing. -/
theorem c4_counterexample :
    alookup (extractRadar "SCORE theological_cohesion: 15").1 "theological_cohesion"
      = some 15 ∧
    ¬ ((15 : ℚ) ≤ 10) ∧
    alookup (extractRadar "SCORE theological_cohesion: 15").2 "theological_cohesion"
      = none := by
  decide

/-- C4 (amended): after extraction and default-fill every one of the nine
categories carries a numeric score, and that score is nonnegative (the
regex only matches unsigned decimals); a category whose score line did not
parse gets score 0 with the sentinel justification.  Scores above 10 are
kept as parsed, and a category whose score parsed but whose justification
did not has no justification entry (see the counterexample). -/
theorem c4_extraction_fill (llmResponse : String) (category : String)
    (hc : category ∈ RADAR_CATEGORIES) :
    ∃ q : ℚ, alookup (extractRadar llmResponse).1 category = some q ∧ 0 ≤ q ∧
      (findScore category llmResponse.data = none →
        q = 0 ∧
        alookup (extractRadar llmResponse).2 category
          = some "No evaluation provided.") := by
  cases h : findScore category llmResponse.data with
  | some q' =>
    refine ⟨q', ?_, findScore_nonneg category llmResponse.data q' h, ?_⟩
    · rw [extractRadar_score_lookup llmResponse category hc, h]
      rfl
    · intro hno
      exact Option.noConfusion hno
  | none =>
    refine ⟨0, ?_, le_refl 0, fun _ => ⟨rfl, ?_⟩⟩
    · rw [extractRadar_score_lookup llmResponse category hc, h]
      rfl
    · rw [extractRadar_just_lookup llmResponse category hc, h]

/-- C4 (witness): the amended theorem at the empty reply and the first
category. -/
theorem c4_extraction_fill_witness :
    ∃ q : ℚ, alookup (extractRadar "").1 "theological_cohesion" = some q ∧ 0 ≤ q ∧
      (findScore "theological_cohesion" "".data = none →
        q = 0 ∧
        alookup (extractRadar "").2 "theological_cohesion"
          = some "No evaluation provided.") :=
  c4_extraction_fill "" "theological_cohesion" (by decide)

/-- A reply that omits every category. -/
def c5ReplyOmit : String := ""

/-- A reply that explicitly scores the first category 0 with the sentinel
text as its justification. -/
def c5ReplyZero : String :=
  "SCORE theological_cohesion: 0\nJUSTIFICATION theological_cohesion: No evaluation provided."

/-- C5 (counterexample): the sentinel default is applied *inside*
`generateRadarScores`, before it returns — not at a later merge/output
step — so its caller cannot distinguish a model-omitted category from an
explicit zero: a reply omitting `theological_cohesion` and a reply scoring
it 0 with the sentinel justification produce identical extraction
results, although only one of them has a parsed score line. -/
theorem c5_counterexample :
    findScore "theological_cohesion" c5ReplyOmit.data = none ∧
    findScore "theological_cohesion" c5ReplyZero.data = some 0 ∧
    extractRadar c5ReplyOmit = extractRadar c5ReplyZero := by
  decide

/-- C5 (amended): the extraction loop itself does leave an absent or
non-numeric score unset, but the sentinel default (score 0 with the
"no evaluation provided" justification) is applied by the fallback loop in
the same function before it returns, so the extractor's result always maps
the category to 0 and the two cases are indistinguishable there. -/
theorem c5_default_inside_extractor (llmResponse : String) (category : String)
    (hc : category ∈ RADAR_CATEGORIES)
    (hno : findScore category llmResponse.data = none) :
    alookup (extractLoop llmResponse.data).1 category = none ∧
    alookup (extractRadar llmResponse).1 category = some 0 ∧
    alookup (extractRadar llmResponse).2 category
      = some "No evaluation provided." := by
  refine ⟨?_, ?_, ?_⟩
  · unfold extractLoop
    rw [(foldl_extractStep_mem llmResponse.data RADAR_CATEGORIES ([], []) category
      radar_categories_nodup hc).1, hno]
    rfl
  · rw [extractRadar_score_lookup llmResponse category hc, hno]
    rfl
  · rw [extractRadar_just_lookup llmResponse category hc, hno]

/-- C5 (witness): the amended theorem at the empty reply and
`liturgical_harmony`. -/
theorem c5_default_inside_extractor_witness :
    alookup (extractLoop "".data).1 "liturgical_harmony" = none ∧
    alookup (extractRadar "").1 "liturgical_harmony" = some 0 ∧
    alookup (extractRadar "").2 "liturgical_harmony"
      = some "No evaluation provided." :=
  c5_default_inside_extractor "" "liturgical_harmony" (by decide) (by decide)

/-- A reply consisting of one nested JSON object and nothing else. -/
def c6Reply : String := "\x7b\"a\":\x7b\"b\":1\x7d\x7d"

/-- The shortest brace substring of `c6Reply`: cut before the outer
closing brace. -/
def c6LazyPiece : String := "\x7b\"a\":\x7b\"b\":1\x7d"

/-- C6 (counterexample): the brace fallback is not a balanced match.  On a
reply holding only the nested object `{"a":{"b":1}}`, the code's regex
match stops at the first closing brace, `JSON.parse` fails on the cut-off
text, and the document's existing metadata is returned unchanged — whereas
the balanced substring the claim describes is the whole reply, parses
fine, and would have been merged (bringing in the key `a`). -/
theorem c6_counterexample :
    generateSermonMetadataFromReply c6Reply [] = [] ∧
    braceMatch c6Reply.data = some c6LazyPiece.data ∧
    jsonParse c6LazyPiece = none ∧
    braceBalancedSpec c6Reply.data = some c6Reply.data ∧
    jsonParse c6Reply = some (.obj [("a", .obj [("b", .num 1)])]) ∧
    alookup (mergeMetadata (.obj [("a", .obj [("b", .num 1)])]) []) "a"
      = some (.obj [("b", .num 1)]) ∧
    alookup ([] : JObj) "a" = none :=
  ⟨rfl, rfl, rfl, rfl, rfl, rfl, rfl⟩

/-- C6 (amended): the extractor tries the fenced block first and, failing
a truthy capture, the lazy brace match (first opening brace to the
*nearest* closing brace, not a balanced one); whenever no pattern is found
or `JSON.parse` fails on what was found, the operation returns the
existing metadata unchanged instead of crashing. -/
theorem c6_extraction_fallback (reply : String) (existing : JObj) :
    (extractFencedBlock reply.data = none → braceMatch reply.data = none →
      generateSermonMetadataFromReply reply existing = existing) ∧
    (∀ cap, extractFencedBlock reply.data = some cap → cap ≠ [] →
      jsonParse (jsTrim (String.mk cap)) = none →
      generateSermonMetadataFromReply reply existing = existing) ∧
    (∀ m, extractFencedBlock reply.data = none → braceMatch reply.data = some m →
      jsonParse (String.mk m) = none →
      generateSermonMetadataFromReply reply existing = existing) := by
  refine ⟨?_, ?_, ?_⟩
  · intro hf hb
    unfold generateSermonMetadataFromReply braceFallback
    rw [hf, hb]
  · intro cap hf hne hp
    unfold generateSermonMetadataFromReply
    rw [hf]
    dsimp only
    rw [if_pos hne, hp]
  · intro m hf hb hp
    unfold generateSermonMetadataFromReply braceFallback
    rw [hf]
    dsimp only
    rw [hb]
    dsimp only
    rw [hp]

/-- C6 (witness): a reply with no fenced block and no brace pair leaves a
concrete existing metadata object untouched. -/
theorem c6_extraction_fallback_witness :
    generateSermonMetadataFromReply "no structured data here"
        [("sermon_title", .str "Keep")]
      = [("sermon_title", .str "Keep")] :=
  (c6_extraction_fallback "no structured data here" [("sermon_title", .str "Keep")]).1
    rfl rfl

/-- The provider error a permanently overloaded backend throws. -/
def overloadedError : ClaudeError := ⟨some 529, none, "Overloaded"⟩

/-- C7 (counterexample): with the configured maximum `maxRetries = 5` (the
source default) and a provider that always reports overloaded, the loop
makes 6 attempts — not exactly the configured maximum of 5 — and then
rethrows the raw provider error itself rather than a distinct
exhausted-retries failure. -/
theorem c7_counterexample :
    (callClaudeWithRetry (α := Unit) (fun _ => .err overloadedError) 5).attempts = 6 ∧
    (callClaudeWithRetry (α := Unit) (fun _ => .err overloadedError) 5).attempts ≠ 5 ∧
    (callClaudeWithRetry (α := Unit) (fun _ => .err overloadedError) 5).result
      = .err overloadedError := by
  decide

/-- C7 (amended): for every configured `maxRetries` and every
always-overloaded provider, the loop makes exactly `maxRetries + 1`
attempts with strictly increasing waits `5000·2^k` between consecutive
attempts, and then surfaces the provider's raw error to the caller. -/
theorem c7_retry_behaviour {α : Type} (maxRetries : ℕ) (e : ClaudeError)
    (hs : e.status = some 529) :
    callClaudeWithRetry (α := α) (fun _ => .err e) maxRetries =
      ⟨maxRetries + 1, (List.range maxRetries).map (fun k => 5000 * 2 ^ k), .err e⟩ ∧
    List.Chain' (· < ·) ((List.range maxRetries).map (fun k => 5000 * 2 ^ k)) := by
  constructor
  · have h := callClaudeLoop_always529 (α := α) e hs maxRetries (maxRetries + 1) 0 0 []
      (by omega) (by omega)
    simpa using h
  · rw [List.chain'_map]
    cases maxRetries with
    | zero => simp
    | succ n =>
      rw [List.chain'_range_succ]
      intro m hm
      have h2 : (2 : ℕ) ^ m < 2 ^ (m + 1) := by
        apply Nat.pow_lt_pow_right
        · omega
        · omega
      omega

/-- C7 (witness): the amended behaviour at the source's default ceiling of
5 retries. -/
theorem c7_retry_behaviour_witness :
    callClaudeWithRetry (α := Unit) (fun _ => .err overloadedError) 5 =
      ⟨5 + 1, (List.range 5).map (fun k => 5000 * 2 ^ k), .err overloadedError⟩ ∧
    List.Chain' (· < ·) ((List.range 5).map (fun k => 5000 * 2 ^ k)) :=
  c7_retry_behaviour 5 overloadedError rfl

/-- C8 (confirmed): for every environment, options and document
collection, the batch run returns exactly one result per document, the
i-th result is precisely the (total) per-document processing of the i-th
document — so one document's caught failure cannot abort or perturb any
other document's processing and writing — and every result carries its own
document's path, so a failure is recorded against the right document. -/
theorem c8_batch_isolation (env : Env) (options : ProcessOptions) (files : List String) :
    (processSermonDirectory env options files).length = files.length ∧
    (∀ i : ℕ, (processSermonDirectory env options files)[i]? =
      (files[i]?).map (fun f => processSermonFile env f options)) ∧
    (∀ f : String, (processSermonFile env f options).path = f) := by
  unfold processSermonDirectory
  rw [processBatches_eq_map]
  refine ⟨by simp, ?_, fun f => processSermonFile_path env f options⟩
  intro i
  simp

/-- The environment of the fallback scenario: a readable document with no
radar scores, a radar transport that fails for every model except the
would-be fallback model, and a successful file write. -/
def c9Env : Env where
  readFile := fun p =>
    if p = "sermon.md" then .ok "---\nsermon_title: Test\n---\nBody" else .err ⟨"ENOENT"⟩
  parseMatter := fun c =>
    if c = "---\nsermon_title: Test\n---\nBody"
    then .ok ([("sermon_title", .str "Test")], "\nBody") else .err ⟨"bad frontmatter"⟩
  metadataReply := fun _ _ => .err ⟨"not used in this scenario"⟩
  radarReply := fun _ opts =>
    if opts.model = some "claude-3-5-sonnet-20240620"
    then .ok "SCORE theological_cohesion: 9\nJUSTIFICATION theological_cohesion: Strong."
    else .err ⟨"Overloaded"⟩
  updateFile := fun _ _ _ _ => true

/-- The options of the fallback scenario: score-only run with
`fallbackModel` enabled and a primary radar model that always fails. -/
def c9Opts : ProcessOptions :=
  { generateMissing := false, scoreOnly := true, fallbackModel := true,
    modelForRadar := some "claude-3-7-sonnet-20250219" }

/-- The reply the fallback model would have given. -/
def c9FallbackReply : String :=
  "SCORE theological_cohesion: 9\nJUSTIFICATION theological_cohesion: Strong."

/-- C9 (code_bug): with a fallback model configured and the primary model
failing on every call, the operation is *not* re-invoked with the
fallback: `generateRadarScores` swallows the provider failure internally
and returns empty scores, which are recorded as a success and written —
neither the fallback's result (a score of 9 was available from the
fallback model) nor a recorded failure, the two outcomes the claim
allows.  (Had the failure propagated, the fallback branch would throw
`ReferenceError: llmOptions is not defined` before re-invoking; see
`radarTry`.) -/
theorem c9_fallback_never_used :
    processSermonFile c9Env "sermon.md" c9Opts =
      .success "sermon.md"
        [("sermon_title", .str "Test"), ("radar_score", .obj [])] [] (true, []) true ∧
    c9Env.radarReply "\nBody" ⟨false, false, some "claude-3-5-sonnet-20240620"⟩ =
      .ok c9FallbackReply ∧
    alookup (extractRadar c9FallbackReply).1 "theological_cohesion" = some 9 := by
  refine ⟨rfl, rfl, ?_⟩
  decide

/-- C10 (confirmed): the nine extraction categories end with
`embodied_authority` while the section-rendering and validation lists end
with `improvisational_trust`.  Extraction therefore always produces an
`embodied_authority` score that no rendering bullet ever shows and no
validation pass ever range-checks (a 99 there is accepted), and never
produces the `improvisational_trust` entry that rendering would show and
validation would flag. -/
theorem c10_category_mismatch (llmResponse : String) :
    (alookup (extractRadar llmResponse).1 "embodied_authority").isSome = true ∧
    alookup (extractRadar llmResponse).1 "improvisational_trust" = none ∧
    "embodied_authority" ∈ RADAR_CATEGORIES ∧
    "embodied_authority" ∉ sectionCategories ∧
    "embodied_authority" ∉ validationScoreFields ∧
    "improvisational_trust" ∉ RADAR_CATEGORIES ∧
    "improvisational_trust" ∈ sectionCategories ∧
    "improvisational_trust" ∈ validationScoreFields ∧
    (∀ yamlData : JObj, "embodied_authority" ∉ renderedCategories yamlData) ∧
    validateSermonYAML
        [("sermon_title", .str "t"), ("radar_score", .obj [("embodied_authority", .num 99)])]
      = (true, []) ∧
    renderedCategories [("radar_score", .obj [("improvisational_trust", .num 5)])]
      = ["improvisational_trust"] ∧
    validateSermonYAML
        [("sermon_title", .str "t"),
         ("radar_score", .obj [("improvisational_trust", .num 99)])]
      = (false, [invalidScoreMsg "improvisational_trust"]) := by
  refine ⟨?_, ?_, by decide, by decide, by decide, by decide, by decide, by decide,
    ?_, by decide, by decide, by decide⟩
  · rw [extractRadar_score_lookup llmResponse "embodied_authority" (by decide)]
    rfl
  · exact extractRadar_score_lookup_not_mem llmResponse "improvisational_trust" (by decide)
  · intro yamlData h
    exact absurd (List.mem_of_mem_filter h) (by decide)
